import Mathlib

/-!
# js-cord: a verification development

A shallow embedding of the parts of js-cord that the specification talks about:

* `http/EventHandler.js`  : `handleEvent`
* `client/Client.js`      : `Client.latency`, `Client.start`
* `plugins/commands/Bot.js` : the `Bot` constructor and `_setupOptions`
* `models/Embed.js`       : `loadData`, `setFooter`, `toJSON` and the field operations
* the gateway session of `core/Websocket`, from the specification

JavaScript values are embedded as the inductive type `JSValue`; numbers are embedded as
`JSNum` (exact rationals together with `NaN` and the two infinities, rounding of doubles is
not represented).  A thrown exception is a `JSError`.  Code that mutates an object before it
throws returns the mutated object together with the error.
-/

namespace JsCord

/-! ## JavaScript values -/

/-- A JavaScript number: `NaN`, an infinity, or a finite value (kept as an exact rational). -/
inductive JSNum where
  | nan
  | inf (negative : Bool)
  | fin (q : ℚ)
  deriving DecidableEq

namespace JSNum

/-- The `+` operator on numbers. -/
def add : JSNum → JSNum → JSNum
  | nan, _ => nan
  | _, nan => nan
  | inf a, inf b => if a = b then inf a else nan
  | inf a, fin _ => inf a
  | fin _, inf b => inf b
  | fin x, fin y => fin (x + y)

/-- The `*` operator on numbers. -/
def mul : JSNum → JSNum → JSNum
  | nan, _ => nan
  | _, nan => nan
  | inf a, inf b => inf (a != b)
  | inf a, fin y => if y = 0 then nan else inf (a != decide (y < 0))
  | fin x, inf b => if x = 0 then nan else inf (decide (x < 0) != b)
  | fin x, fin y => fin (x * y)

/-- The `/` operator on numbers (the divisor zero is the positive zero). -/
def div : JSNum → JSNum → JSNum
  | nan, _ => nan
  | _, nan => nan
  | inf _, inf _ => nan
  | inf a, fin y => inf (a != decide (y < 0))
  | fin _, inf _ => fin 0
  | fin x, fin y => if y = 0 then (if x = 0 then nan else inf (decide (x < 0))) else fin (x / y)

/-- A number that is neither `NaN` nor an infinity. -/
def isFinite : JSNum → Bool
  | fin _ => true
  | _ => false

end JSNum

/-- A JavaScript value.  A function is kept by name only. -/
inductive JSValue where
  | undefined
  | null
  | bool (b : Bool)
  | num (n : JSNum)
  | str (s : String)
  | arr (items : List JSValue)
  | obj (props : List (String × JSValue))
  | fn (name : String)

namespace JSValue

/-- ToBoolean: what `if (v)`, `!v` and `v || w` test. -/
def truthy : JSValue → Bool
  | undefined => false
  | null => false
  | bool b => b
  | num (JSNum.fin q) => decide (q ≠ 0)
  | num JSNum.nan => false
  | num (JSNum.inf _) => true
  | str s => decide (s ≠ "")
  | arr _ => true
  | obj _ => true
  | fn _ => true

/-- The `typeof` operator. -/
def typeOf : JSValue → String
  | undefined => "undefined"
  | null => "object"
  | bool _ => "boolean"
  | num _ => "number"
  | str _ => "string"
  | arr _ => "object"
  | obj _ => "object"
  | fn _ => "function"

/-- The test `v instanceof Object`. -/
def instanceofObject : JSValue → Bool
  | arr _ => true
  | obj _ => true
  | fn _ => true
  | _ => false

/-- The test `v instanceof Array`. -/
def instanceofArray : JSValue → Bool
  | arr _ => true
  | _ => false

/-- The operator `a || b`. -/
def or (a b : JSValue) : JSValue :=
  if a.truthy then a else b

end JSValue

/-- Look a key up in the property list of an object literal. -/
def lookupProp (key : String) : List (String × JSValue) → JSValue
  | [] => JSValue.undefined
  | (k, v) :: rest => if k = key then v else lookupProp key rest

/-- A thrown exception: the name of its class and its message. -/
structure JSError where
  name : String
  message : String
  deriving DecidableEq

/-- Property read `v.key` (or `v[key]`) for the data properties used in this library:
reading from `undefined` or `null` throws a `TypeError`, an object gives the value stored
under the key, and the other values have no such property (the built-in members of strings,
arrays and functions, such as `length`, are not represented). -/
def getProp (v : JSValue) (key : String) : Except JSError JSValue :=
  match v with
  | JSValue.undefined =>
      Except.error ⟨"TypeError", "Cannot read properties of undefined"⟩
  | JSValue.null =>
      Except.error ⟨"TypeError", "Cannot read properties of null"⟩
  | JSValue.obj props => Except.ok (lookupProp key props)
  | _ => Except.ok JSValue.undefined

/-! ## The client (`client/Client.js`) and the event handler (`http/EventHandler.js`) -/

/-- The object `new ClientUser(client, data)`: the class is not part of the sources at hand,
so the object is kept as the payload its constructor received. -/
structure ClientUser where
  data : JSValue

/-- An argument handed to `emit`. -/
inductive EmitArg where
  | null
  | message (data : JSValue)

/-- One call `client.emit(name, ...args)`, together with the value `client.user` had when the
call was made (which is what a listener reading `client.user` sees). -/
structure Emission where
  name : String
  args : List EmitArg
  userAtEmit : Option ClientUser

/-- The object `new Requester(client, apiVersion)`, with the token the client held when the
constructor ran. -/
structure Requester where
  tokenAtCreation : JSValue
  apiVersion : Nat

/-- The object `new Websocket(client, gatewayVersion)`, with the token the client held when
the constructor ran, its latency samples, and whether `start()` has opened the transport. -/
structure Websocket where
  tokenAtCreation : JSValue
  gatewayVersion : Nat
  latencies : List JSNum
  started : Bool

/-- The fields of a `Client` that the code below reads or writes, and the log of the
notifications it has emitted. -/
structure Client where
  token : JSValue
  http : Option Requester
  ws : Option Websocket
  user : Option ClientUser
  loggedIn : Bool
  apiVersion : Nat
  gatewayVersion : Nat
  emitted : List Emission

/-- The constructor of `Client` with its default versions. -/
def Client.new : Client :=
  { token := JSValue.undefined, http := none, ws := none, user := none, loggedIn := false,
    apiVersion := 9, gatewayVersion := 9, emitted := [] }

/-- The call `client.emit(name, ...args)`. -/
def Client.emit (c : Client) (name : String) (args : List EmitArg) : Client :=
  { c with emitted := c.emitted ++ [⟨name, args, c.user⟩] }

/-- The call `s.replace(" ", "_")` on the characters of a string: a string pattern replaces
the first occurrence only. -/
def replaceFirstSpace : List Char → List Char
  | [] => []
  | c :: cs => if c = ' ' then '_' :: cs else c :: replaceFirstSpace cs

/-- The first statement of `handleEvent`: `event.toUpperCase().replace(" ", "_")`.  The
built-in `toUpperCase` is a parameter. -/
def normalise (toUpperCase : String → String) (event : String) : String :=
  String.mk (replaceFirstSpace (toUpperCase event).data)

/-- Upper-casing of the ASCII letters, an instance of the built-in `toUpperCase` on ASCII
event names. -/
def asciiUpper (s : String) : String :=
  String.mk (s.data.map Char.toUpper)

/-- The event names `handleEvent` has a branch for. -/
def recognisedEvents : List String :=
  ["READY", "RESUMED", "RECONNECT", "CHANNEL_CREATE", "MESSAGE_CREATE", "MESSAGE_UPDATE",
   "MESSAGE_DELETE", "MESSAGE_DELETE_BULK"]

/-- The function `handleEvent(client, event, data)`, called with a receiver whose `client`
is the same client.  The result is the client afterwards and the exception thrown, if any. -/
def handleEvent (toUpperCase : String → String) (client : Client) (event : String)
    (data : JSValue) : Client × Option JSError :=
  let event := normalise toUpperCase event
  if event = "READY" then
    let client := client.emit "ready" []
    match getProp data "user" with
    | Except.error e => (client, some e)
    | Except.ok u => ({ client with user := some ⟨u⟩ }, none)
  else if event = "RESUMED" then
    (client.emit "resumed" [], none)
  else if event = "RECONNECT" then
    (client.emit "reconnect" [], none)
  else if event = "CHANNEL_CREATE" then
    (client.emit "channel" [], none)
  else if event = "MESSAGE_CREATE" then
    (client.emit "message" [EmitArg.message data], none)
  else if event = "MESSAGE_UPDATE" then
    (client.emit "messageEdit" [EmitArg.null, EmitArg.message data], none)
  else if event = "MESSAGE_DELETE" then
    (client.emit "messageDelete" [EmitArg.null], none)
  else if event = "MESSAGE_DELETE_BULK" then
    (client.emit "messageBulkDelete" [EmitArg.null], none)
  else
    (client, none)

/-- The `ready` notifications in a log. -/
def readyCount (log : List Emission) : Nat :=
  (log.filter (fun e => e.name == "ready")).length

/-- The call `xs.slice(start)` on an array: a negative `start` counts from the end. -/
def slice {α : Type} (xs : List α) (start : Int) : List α :=
  let len : Int := xs.length
  let k : Int := if start < 0 then max (len + start) 0 else min start len
  xs.drop k.toNat

/-- Modelled from the spec: `sum` of `utils` is not among the sources at hand; the spec calls
the result of `latency` a mean, so `sum` adds up the elements of the array, starting from 0. -/
def utils.sum (xs : List JSNum) : JSNum :=
  xs.foldl JSNum.add (JSNum.fin 0)

/-- The getter `Client.latency`, with the helper `sum` of `utils` as a parameter. -/
def Client.latency (sum : List JSNum → JSNum) (c : Client) : Except JSError JSNum :=
  match c.ws with
  | none => Except.error ⟨"TypeError", "Cannot read properties of undefined"⟩
  | some ws =>
    let latencies := ws.latencies
    let lastThree := slice latencies (-3)
    Except.ok (JSNum.mul (JSNum.div (sum lastThree) (JSNum.fin (lastThree.length : ℚ)))
      (JSNum.fin 1000))

/-- The private method `Client.#putToken`. -/
def Client.putToken (c : Client) (token : JSValue) : Except JSError Client :=
  if !token.truthy then Except.error ⟨"InvalidToken", "Token is undefined."⟩
  else Except.ok { c with token := token }

/-- The private method `Client.#establishHTTP`. -/
def Client.establishHTTP (c : Client) : Client :=
  { c with http := some ⟨c.token, c.apiVersion⟩ }

/-- The private method `Client.#establishWebsocket`. -/
def Client.establishWebsocket (c : Client) : Client :=
  { c with ws := some ⟨c.token, c.gatewayVersion, [], false⟩ }

/-- Modelled from the spec: `Websocket.start` is not among the sources at hand; by the spec
(4.1) `start` opens the transport and fails with `ConnectionError` if the transport cannot be
opened.  Whether the transport opens is a parameter. -/
def Websocket.start (transportOpens : Bool) (ws : Websocket) : Except JSError Websocket :=
  if transportOpens then Except.ok { ws with started := true }
  else Except.error ⟨"ConnectionError", "The transport could not be opened."⟩

/-- The method `Client.start(token)`: the client afterwards and the exception the returned
promise is rejected with, if any. -/
def Client.start (transportOpens : Bool) (c : Client) (token : JSValue) :
    Client × Option JSError :=
  match c.putToken token with
  | Except.error e => (c, some e)
  | Except.ok c =>
    let c := c.establishHTTP
    let c := c.establishWebsocket
    match c.ws with
    | none => (c, some ⟨"TypeError", "Cannot read properties of undefined"⟩)
    | some ws =>
      match ws.start transportOpens with
      | Except.error e => (c, some e)
      | Except.ok ws => ({ c with ws := some ws }, none)

/-! ## The command bot (`plugins/commands/Bot.js`) -/

/-- A `Bot` is a `Client` with a `prefix`. -/
structure Bot where
  client : Client
  pfx : JSValue

/-- The object `botDefaults`. -/
def botDefaults : List (String × JSValue) :=
  [("prefix", JSValue.undefined), ("prefixCaseInsensitive", JSValue.bool false),
   ("commandsCaseInsensitive", JSValue.bool true), ("helpCommand", JSValue.undefined),
   ("description", JSValue.undefined)]

/-- Whether a property list has a key. -/
def hasProp (key : String) : List (String × JSValue) → Bool
  | [] => false
  | (k, _) :: rest => k == key || hasProp key rest

/-- Define a property in an object literal: an existing key keeps its place and takes the new
value, a new key goes to the end. -/
def setProp (key : String) (value : JSValue) : List (String × JSValue) → List (String × JSValue)
  | [] => [(key, value)]
  | (k, v) :: rest => if k = key then (k, value) :: rest else (k, v) :: setProp key value rest

/-- The own enumerable properties an object spread `...v` copies: those of an object, the
indexed elements of an array, nothing for `null`. -/
def ownProps : JSValue → List (String × JSValue)
  | JSValue.obj props => props
  | JSValue.arr items => (List.range items.length).zip items |>.map (fun p => (toString p.1, p.2))
  | _ => []

/-- The object literal `{ ...base, ...v }` continued from the properties `base`. -/
def spreadInto (base : List (String × JSValue)) (v : JSValue) : List (String × JSValue) :=
  (ownProps v).foldl (fun acc p => setProp p.1 p.2 acc) base

/-- The call `Object.items(options)`.  The built-in `Object` has no member `items` (it has
`keys`, `values` and `entries`), so the call throws. -/
def Object.items (_options : JSValue) : Except JSError (List (String × JSValue)) :=
  Except.error ⟨"TypeError", "Object.items is not a function"⟩

/-- Reading `this` in the constructor of a derived class: an exception until `super()` has
been called. -/
def thisBinding (this : Option Bot) : Except JSError Bot :=
  match this with
  | none => Except.error ⟨"ReferenceError",
      "Must call super constructor in derived class before accessing this"⟩
  | some b => Except.ok b

/-- The statement `throw new CommandErrors.ConstructionError(message)` inside `with (opts)`:
an option named `CommandErrors` shadows the imported module. -/
def throwConstructionError (opts : List (String × JSValue)) (message : String) : JSError :=
  if hasProp "CommandErrors" opts then
    match getProp (lookupProp "CommandErrors" opts) "ConstructionError" with
    | Except.error e => e
    | Except.ok (JSValue.fn name) => ⟨name, message⟩
    | Except.ok _ => ⟨"TypeError", "CommandErrors.ConstructionError is not a constructor"⟩
  else ⟨"ConstructionError", message⟩

/-- The test `prefix instanceof Array` inside `with (opts)`: an option named `Array` shadows
the built-in, and a right-hand side that is not a function throws. -/
def prefixInstanceofArray (opts : List (String × JSValue)) (pfx : JSValue) :
    Except JSError Bool :=
  if hasProp "Array" opts then
    match lookupProp "Array" opts with
    | JSValue.fn _ => Except.ok false
    | _ => Except.error ⟨"TypeError", "Right-hand side of instanceof is not callable"⟩
  else Except.ok pfx.instanceofArray

/-- The method `Bot._setupOptions(opts)`, for an object `opts`.  Inside `with (opts)` the
name `prefix` is the property of `opts` when `opts` has one; no enclosing scope declares
`prefix`, so otherwise reading it throws a `ReferenceError`. -/
def Bot._setupOptions (this : Bot) (opts : List (String × JSValue)) : Except JSError Bot :=
  if hasProp "prefix" opts then
    let pfx := lookupProp "prefix" opts
    if !pfx.truthy then
      Except.error (throwConstructionError opts "Prefix is a required option that is missing.")
    else if ["string", "function"].contains pfx.typeOf then
      Except.ok { this with pfx := pfx }
    else
      match prefixInstanceofArray opts pfx with
      | Except.error e => Except.error e
      | Except.ok true => Except.ok { this with pfx := pfx }
      | Except.ok false => Except.error (throwConstructionError opts "hi")
  else Except.error ⟨"ReferenceError", "prefix is not defined"⟩

/-- The constructor `new Bot(options)`.  It never calls `super()`, so `this` is not
initialised anywhere in its body, nor when the body ends and `this` is returned. -/
def Bot.new (options : JSValue) : Except JSError Bot :=
  let this : Option Bot := none
  if options.typeOf = "object" then
    match Object.items options with
    | Except.error e => Except.error e
    | Except.ok _ =>
      match thisBinding this with
      | Except.error e => Except.error e
      | Except.ok self =>
        self._setupOptions (spreadInto [("botDefaults", JSValue.obj botDefaults)] options)
  else if options.typeOf = "string" then
    match thisBinding this with
    | Except.error e => Except.error e
    | Except.ok self => self._setupOptions (setProp "prefix" options botDefaults)
  else
    thisBinding this

/-! ## Embeds (`models/Embed.js`) -/

/-- What `Embed.js` uses from outside the sources at hand: how the built-in `Date.parse`
reads a value that may be a date, how `toISOString` prints a valid time, and the `value` of
the colour `new Color(v)`. -/
structure Host where
  parseDate : JSValue → Option Int
  isoString : Int → String
  colorValue : JSValue → JSValue

/-- The built-in `Date.parse(v)`.  The argument is converted to a string first; `undefined`,
`null` and the booleans give `"undefined"`, `"null"`, `"true"` and `"false"`, which are not
dates, so the result is `NaN`.  The other values are left to the host. -/
def Date.parse (host : Host) : JSValue → JSNum
  | JSValue.undefined => JSNum.nan
  | JSValue.null => JSNum.nan
  | JSValue.bool _ => JSNum.nan
  | v =>
    match host.parseDate v with
    | some t => JSNum.fin (t : ℚ)
    | none => JSNum.nan

/-- A `Date` object: its time value in milliseconds, or `none` for an invalid date. -/
structure JSDate where
  time : Option Int

/-- The constructor `new Date(n)` for a number `n`: a value that is not finite or is beyond
8.64e15 milliseconds gives an invalid date, a finite one is truncated to an integer. -/
def Date.new : JSNum → JSDate
  | JSNum.fin q =>
    if |q| ≤ 8640000000000000 then ⟨some (if 0 ≤ q then ⌊q⌋ else ⌈q⌉)⟩ else ⟨none⟩
  | _ => ⟨none⟩

/-- The method `toISOString()`: a `RangeError` for an invalid date. -/
def JSDate.toISOString (host : Host) (d : JSDate) : Except JSError String :=
  match d.time with
  | none => Except.error ⟨"RangeError", "Invalid time value"⟩
  | some t => Except.ok (host.isoString t)

/-- An `Embed`.  The objects `footer`, `author`, `thumbnail`, `image` and `video` are kept as
property lists; `timestamp` and `color` are `none` while the property is not set, and `color`
keeps the argument its `Color` was built from. -/
structure Embed where
  type : JSValue
  footer : List (String × JSValue)
  author : List (String × JSValue)
  thumbnail : List (String × JSValue)
  image : List (String × JSValue)
  video : List (String × JSValue)
  provider : JSValue
  fields : JSValue
  files : List JSValue
  title : JSValue
  description : JSValue
  url : JSValue
  timestamp : Option JSDate
  color : Option JSValue

/-- The state of `this` in the constructor of `Embed` before `data` is looked at. -/
def Embed.empty : Embed :=
  { type := JSValue.str "rich", footer := [], author := [], thumbnail := [], image := [],
    video := [], provider := JSValue.obj [], fields := JSValue.arr [], files := [],
    title := JSValue.undefined, description := JSValue.undefined, url := JSValue.undefined,
    timestamp := none, color := none }

/-- The object `{ text, iconURL, proxyIconURL, toString }` that `loadData` builds from
`data.footer`. -/
def Embed.footerOf (footer : JSValue) : Except JSError (List (String × JSValue)) := do
  let text ← getProp footer "text"
  let iconURL ← getProp footer "icon_url"
  let proxyIconURL ← getProp footer "proxy_icon_url"
  pure [("text", text), ("iconURL", iconURL), ("proxyIconURL", proxyIconURL),
    ("toString", JSValue.fn "toString")]

/-- The object `{ name, iconURL, proxyIconURL, url, toString }` that `loadData` builds from
`data.author`. -/
def Embed.authorOf (author : JSValue) : Except JSError (List (String × JSValue)) := do
  let name ← getProp author "name"
  let iconURL ← getProp author "icon_url"
  let proxyIconURL ← getProp author "proxy_icon_url"
  let url ← getProp author "url"
  pure [("name", name), ("iconURL", iconURL), ("proxyIconURL", proxyIconURL), ("url", url),
    ("toString", JSValue.fn "toString")]

/-- The object `{ url, proxyURL, height, width, toString }` that `loadData` builds from
`data.thumbnail`, from `data.image` and from `data.video`. -/
def Embed.mediaOf (media : JSValue) : Except JSError (List (String × JSValue)) := do
  let url ← getProp media "url"
  let proxyURL ← getProp media "proxy_url"
  let height ← getProp media "height"
  let width ← getProp media "width"
  pure [("url", url), ("proxyURL", proxyURL), ("height", height), ("width", width),
    ("toString", JSValue.fn "toString")]

/-- The first part of `loadData(data)`: type, title, description, url, timestamp, color and
fields. -/
def Embed.loadScalars (host : Host) (this : Embed) (data : JSValue) : Except JSError Embed := do
  let dtype ← getProp data "type"
  let this := if dtype.truthy then { this with type := dtype } else this
  let title ← getProp data "title"
  let description ← getProp data "description"
  let url ← getProp data "url"
  let timestamp ← getProp data "timestamp"
  let color ← getProp data "color"
  let dfields ← getProp data "fields"
  pure { this with
    title := title
    description := description
    url := url
    timestamp := some (Date.new (Date.parse host timestamp))
    color := some (color.or (JSValue.num (JSNum.fin 0)))
    fields := if dfields.truthy then dfields else JSValue.arr [] }

/-- The part `if (data.footer) { this.footer = ... }` of `loadData`. -/
def Embed.loadFooter (this : Embed) (data : JSValue) : Except JSError Embed := do
  let footer ← getProp data "footer"
  if footer.truthy then
    pure { this with footer := ← Embed.footerOf footer }
  else pure this

/-- The part `if (data.author) { this.author = ... }` of `loadData`. -/
def Embed.loadAuthor (this : Embed) (data : JSValue) : Except JSError Embed := do
  let author ← getProp data "author"
  if author.truthy then
    pure { this with author := ← Embed.authorOf author }
  else pure this

/-- The part `if (data.thumbnail) { this.thumbnail = ... }` of `loadData`. -/
def Embed.loadThumbnail (this : Embed) (data : JSValue) : Except JSError Embed := do
  let thumbnail ← getProp data "thumbnail"
  if thumbnail.truthy then
    pure { this with thumbnail := ← Embed.mediaOf thumbnail }
  else pure this

/-- The part `if (data.image) { this.image = ... }` of `loadData`. -/
def Embed.loadImage (this : Embed) (data : JSValue) : Except JSError Embed := do
  let image ← getProp data "image"
  if image.truthy then
    pure { this with image := ← Embed.mediaOf image }
  else pure this

/-- The part `if (data.video) { this.video = ... }` of `loadData`. -/
def Embed.loadVideo (this : Embed) (data : JSValue) : Except JSError Embed := do
  let video ← getProp data "video"
  if video.truthy then
    pure { this with video := ← Embed.mediaOf video }
  else pure this

/-- The part `if (data.provider) this.provider = data.provider` of `loadData`. -/
def Embed.loadProvider (this : Embed) (data : JSValue) : Except JSError Embed := do
  let provider ← getProp data "provider"
  pure (if provider.truthy then { this with provider := provider } else this)

/-- The method `loadData(data)`: its parts in the order of the source. -/
def Embed.loadData (host : Host) (this : Embed) (data : JSValue) : Except JSError Embed := do
  let this ← this.loadScalars host data
  let this ← this.loadFooter data
  let this ← this.loadAuthor data
  let this ← this.loadThumbnail data
  let this ← this.loadImage data
  let this ← this.loadVideo data
  this.loadProvider data

/-- The constructor `new Embed(data)`; `new Embed()` is `Embed.new host JSValue.undefined`. -/
def Embed.new (host : Host) (data : JSValue) : Except JSError Embed :=
  if data.truthy then Embed.empty.loadData host data else Except.ok Embed.empty

/-- The private method `#buildFooter(text, iconURL)`. -/
def Embed.buildFooter (text iconURL : JSValue) : Except JSError (JSValue × JSValue) :=
  if text.instanceofObject then do
    let iconURL ← getProp text "iconURL"
    let text ← getProp text "text"
    pure (text, iconURL)
  else pure (text, iconURL)

/-- The method `setFooter(text, iconURL)`. -/
def Embed.setFooter (this : Embed) (text iconURL : JSValue) : Except JSError Embed := do
  let (text, iconURL) ← Embed.buildFooter text iconURL
  pure { this with footer :=
    [("text", text.or (lookupProp "text" this.footer)),
     ("iconURL", iconURL.or (lookupProp "iconURL" this.footer))] }

/-- The method `setFooterText(text)`. -/
def Embed.setFooterText (this : Embed) (text : JSValue) : Except JSError Embed :=
  this.setFooter text JSValue.undefined

/-- The method `setFooterIconURL(iconURL)`. -/
def Embed.setFooterIconURL (this : Embed) (iconURL : JSValue) : Except JSError Embed :=
  this.setFooter JSValue.undefined iconURL

/-- The method `toJSON()`. -/
def Embed.toJSON (host : Host) (this : Embed) : Except JSError JSValue := do
  let timestamp ← (match this.timestamp with
    | some d => do pure (JSValue.str (← d.toISOString host))
    | none => pure JSValue.null : Except JSError JSValue)
  pure (JSValue.obj
    [("type", this.type.or (JSValue.str "rich")),
     ("title", this.title.or JSValue.null),
     ("description", this.description.or JSValue.null),
     ("url", this.url.or JSValue.null),
     ("timestamp", timestamp),
     ("color", match this.color with
        | some v => host.colorValue v
        | none => JSValue.null),
     ("footer", if this.footer.length ≠ 0 then
        JSValue.obj
          [("name", (lookupProp "name" this.footer).or JSValue.null),
           ("icon_url", (lookupProp "iconURL" this.footer).or JSValue.null)]
        else JSValue.null),
     ("author", if this.author.length ≠ 0 then
        JSValue.obj
          [("name", (lookupProp "name" this.author).or JSValue.null),
           ("icon_url", (lookupProp "iconURL" this.author).or JSValue.null),
           ("url", (lookupProp "url" this.author).or JSValue.null)]
        else JSValue.null),
     ("image", JSValue.obj [("url", lookupProp "url" this.image)]),
     ("thumbnail", JSValue.obj [("url", lookupProp "url" this.thumbnail)]),
     ("fields", this.fields)])

/-- The value a property read gives when it does not throw. -/
def propOf (v : JSValue) (k : String) : JSValue :=
  match getProp v k with
  | Except.ok x => x
  | Except.error _ => JSValue.undefined

/-- The properties of an embed that the round trip through the constructor is about. -/
def Embed.core (e : Embed) :
    JSValue × JSValue × JSValue × JSValue × JSValue × Option JSDate × List (String × JSValue) :=
  (e.type, e.title, e.description, e.url, e.fields, e.timestamp, e.author)

/-- A host for the examples: it reads only the text `2021-01-01T00:00:00.000Z` as a date, and
prints that one time back. -/
def exampleHost : Host :=
  { parseDate := fun v =>
      match v with
      | JSValue.str s => if s = "2021-01-01T00:00:00.000Z" then some 1609459200000 else none
      | _ => none
    isoString := fun _ => "2021-01-01T00:00:00.000Z"
    colorValue := fun v => v }

/-! ## Embeds: the field operations (`models/Embed.js`) -/

/-- The private method `#craftField(name, value, inline = true)`: the default `true` takes the
place of an `inline` that is `undefined`. -/
def Embed.craftField (name value inline : JSValue) : Except JSError JSValue := do
  let inline := match inline with
    | JSValue.undefined => JSValue.bool true
    | v => v
  if name.instanceofObject then
    let value ← getProp name "value"
    let inline := (← getProp name "inline").or (JSValue.bool true)
    let name ← getProp name "name"
    pure (JSValue.obj [("name", name), ("value", value), ("inline", inline)])
  else
    pure (JSValue.obj [("name", name), ("value", value), ("inline", inline)])

/-- The elements of `this.fields` for a call of one of its array methods (`push`, `splice`,
`pop`, `shift`): reading the method from `undefined` or `null` throws, and a value that is not
an array has no such method (an object with an own property of that name is not
represented). -/
def fieldsArray (fields : JSValue) (method : String) : Except JSError (List JSValue) :=
  match fields with
  | JSValue.arr items => Except.ok items
  | JSValue.undefined => Except.error ⟨"TypeError", "Cannot read properties of undefined"⟩
  | JSValue.null => Except.error ⟨"TypeError", "Cannot read properties of null"⟩
  | _ => Except.error ⟨"TypeError", "this.fields." ++ method ++ " is not a function"⟩

/-- The call `xs.splice(start, deleteCount, ...items)` on the elements of an array, for
integer arguments: a negative `start` counts from the end, and `deleteCount` is clamped to
what is there. -/
def splice (xs : List JSValue) (start deleteCount : Int) (items : List JSValue) :
    List JSValue :=
  let len : Int := xs.length
  let k : Int := if start < 0 then max (len + start) 0 else min start len
  let dc : Int := min (max deleteCount 0) (len - k)
  xs.take k.toNat ++ items ++ xs.drop (k.toNat + dc.toNat)

/-- The assignment `xs[index] = v` on the elements of an array, for an integer index: an
index past the end makes the array longer (the holes read as `undefined`), and a negative
index names a property that is not an element. -/
def setAt (xs : List JSValue) (index : Int) (v : JSValue) : List JSValue :=
  if index < 0 then xs
  else if index.toNat < xs.length then xs.set index.toNat v
  else xs ++ List.replicate (index.toNat - xs.length) JSValue.undefined ++ [v]

/-- The read `this.fields[index]` for an integer index (the characters of a string are not
represented). -/
def readIndex (fields : JSValue) (index : Int) : Except JSError JSValue :=
  match fields with
  | JSValue.arr items =>
    Except.ok (if index < 0 then JSValue.undefined else items.getD index.toNat JSValue.undefined)
  | JSValue.obj props => Except.ok (lookupProp (toString index) props)
  | JSValue.undefined => Except.error ⟨"TypeError", "Cannot read properties of undefined"⟩
  | JSValue.null => Except.error ⟨"TypeError", "Cannot read properties of null"⟩
  | _ => Except.ok JSValue.undefined

/-- The assignment `this.fields[index] = v` for an integer index.  The body of a class is
strict code, so the assignment throws on a primitive value; a property set on a function is
not represented. -/
def assignIndex (fields : JSValue) (index : Int) (v : JSValue) : Except JSError JSValue :=
  match fields with
  | JSValue.arr items => Except.ok (JSValue.arr (setAt items index v))
  | JSValue.obj props => Except.ok (JSValue.obj (setProp (toString index) v props))
  | JSValue.fn name => Except.ok (JSValue.fn name)
  | JSValue.undefined => Except.error ⟨"TypeError", "Cannot set properties of undefined"⟩
  | JSValue.null => Except.error ⟨"TypeError", "Cannot set properties of null"⟩
  | _ => Except.error ⟨"TypeError", "Cannot create property on a primitive value"⟩

/-- The method `addField(name, value, inline)`. -/
def Embed.addField (this : Embed) (name value inline : JSValue) : Except JSError Embed := do
  let items ← fieldsArray this.fields "push"
  let field ← Embed.craftField name value inline
  pure { this with fields := JSValue.arr (items ++ [field]) }

/-- The method `removeField(index)`. -/
def Embed.removeField (this : Embed) (index : Int) : Except JSError Embed := do
  let items ← fieldsArray this.fields "splice"
  pure { this with fields := JSValue.arr (splice items index 1 []) }

/-- The method `setField(index, name, value, inline)`. -/
def Embed.setField (this : Embed) (index : Int) (name value inline : JSValue) :
    Except JSError Embed := do
  let field ← Embed.craftField name value inline
  pure { this with fields := ← assignIndex this.fields index field }

/-- The method `spliceField(index, remove, name, value, inline)`. -/
def Embed.spliceField (this : Embed) (index remove : Int) (name value inline : JSValue) :
    Except JSError Embed := do
  let items ← fieldsArray this.fields "splice"
  let field ← Embed.craftField name value inline
  pure { this with fields := JSValue.arr (splice items index remove [field]) }

/-- The method `insertField(index, name, value, inline)`. -/
def Embed.insertField (this : Embed) (index : Int) (name value inline : JSValue) :
    Except JSError Embed := do
  let items ← fieldsArray this.fields "splice"
  let field ← Embed.craftField name value inline
  pure { this with fields := JSValue.arr (splice items index 0 [field]) }

/-- The method `clearFields()`. -/
def Embed.clearFields (this : Embed) : Embed :=
  { this with fields := JSValue.arr [] }

/-- The method `popField()`, as the embed it leaves (the call returns the popped field). -/
def Embed.popField (this : Embed) : Except JSError Embed := do
  let items ← fieldsArray this.fields "pop"
  pure { this with fields := JSValue.arr items.dropLast }

/-- The method `shiftField()`. -/
def Embed.shiftField (this : Embed) : Except JSError Embed := do
  let items ← fieldsArray this.fields "shift"
  pure { this with fields := JSValue.arr items.tail }

/-- The method `swapField(index, otherIndex)`: both elements are read first, then
`fields[index]` and `fields[otherIndex]` are assigned in this order. -/
def Embed.swapField (this : Embed) (index otherIndex : Int) : Except JSError Embed := do
  let other ← readIndex this.fields otherIndex
  let mine ← readIndex this.fields index
  let this := { this with fields := ← assignIndex this.fields index other }
  pure { this with fields := ← assignIndex this.fields otherIndex mine }

/-- The method `setFields(fields)`. -/
def Embed.setFields (this : Embed) (fields : JSValue) : Embed :=
  { this with fields := fields }

/-- A call of one of the field operations of an embed. -/
inductive FieldOp where
  | addField (name value inline : JSValue)
  | insertField (index : Int) (name value inline : JSValue)
  | spliceField (index remove : Int) (name value inline : JSValue)
  | setField (index : Int) (name value inline : JSValue)
  | setFields (fields : JSValue)
  | removeField (index : Int)
  | popField
  | shiftField
  | swapField (index otherIndex : Int)
  | clearFields

/-- Make one call of a field operation on an embed. -/
def Embed.applyFieldOp (this : Embed) : FieldOp → Except JSError Embed
  | FieldOp.addField name value inline => this.addField name value inline
  | FieldOp.insertField index name value inline => this.insertField index name value inline
  | FieldOp.spliceField index remove name value inline =>
      this.spliceField index remove name value inline
  | FieldOp.setField index name value inline => this.setField index name value inline
  | FieldOp.setFields fields => Except.ok (this.setFields fields)
  | FieldOp.removeField index => this.removeField index
  | FieldOp.popField => this.popField
  | FieldOp.shiftField => this.shiftField
  | FieldOp.swapField index otherIndex => this.swapField index otherIndex
  | FieldOp.clearFields => Except.ok this.clearFields

/-- Make a sequence of calls of field operations, stopping at the first that throws. -/
def Embed.applyFieldOps (this : Embed) : List FieldOp → Except JSError Embed
  | [] => Except.ok this
  | op :: ops =>
    match this.applyFieldOp op with
    | Except.error e => Except.error e
    | Except.ok next => next.applyFieldOps ops

/-- The value of `this.fields.length` when `fields` is an array, and 0 otherwise. -/
def Embed.fieldCount (this : Embed) : Nat :=
  match this.fields with
  | JSValue.arr items => items.length
  | _ => 0

/-! ## The gateway session -/

/-- Modelled from the spec: the gateway session lives in `core/Websocket`, which is not among
the sources at hand.  An inbound data frame, by the wire contract of the spec (section 6): an
optional sequence number, an optional event name and a payload. -/
structure Frame where
  sequence : Option Int
  event : Option String
  payload : JSValue

/-- Modelled from the spec: the gateway session lives in `core/Websocket`, which is not among
the sources at hand.  Of the session of the spec (section 3) this keeps the last-seen sequence
number, null before the first dispatch, and the frames handed to the event decoder. -/
structure Session where
  sequence : Option Int
  dispatched : List Frame

/-- Modelled from the spec: the handling of an inbound data frame in `core/Websocket`, which
is not among the sources at hand.  By the spec (4.1, "Inbound dispatch frame") every inbound
data frame updates the stored sequence number to the sequence of the frame, if present and
only if it strictly increases, before the frame is handed to the event decoder; a frame with a
lower or equal sequence is still dispatched (section 5). -/
def Session.receive (s : Session) (f : Frame) : Session :=
  let sequence :=
    match f.sequence with
    | none => s.sequence
    | some n =>
      match s.sequence with
      | none => some n
      | some m => if m < n then some n else some m
  { sequence := sequence, dispatched := s.dispatched ++ [f] }

/-- Modelled from the spec: the session after a sequence of inbound data frames, handled one
after the other (the frame loop of `core/Websocket` is not among the sources at hand). -/
def Session.receiveAll (s : Session) (frames : List Frame) : Session :=
  frames.foldl Session.receive s

/-- The sequence numbers a session has seen: the one it had stored, and those of the
frames. -/
def Session.seen (s : Session) (frames : List Frame) : List Int :=
  s.sequence.toList ++ frames.filterMap (fun f => f.sequence)

/-- C1: an event whose normalised name is not one `handleEvent` has a branch for is ignored:
no exception, no notification, and the client is returned as it was. -/
theorem handleEvent_unrecognised (toUpperCase : String → String) (client : Client)
    (event : String) (data : JSValue)
    (h : normalise toUpperCase event ∉ recognisedEvents) :
    handleEvent toUpperCase client event data = (client, none) := by
  simp only [recognisedEvents, List.mem_cons, List.mem_singleton, not_or, List.mem_nil_iff,
    not_false_eq_true, and_true] at h
  obtain ⟨h1, h2, h3, h4, h5, h6, h7, h8⟩ := h
  simp only [handleEvent, if_neg h1, if_neg h2, if_neg h3, if_neg h4, if_neg h5, if_neg h6,
    if_neg h7, if_neg h8]

/-- C1 at the event name `"guild create"` and the payload `null`. -/
theorem handleEvent_unrecognised_witness :
    normalise asciiUpper "guild create" ∉ recognisedEvents ∧
    handleEvent asciiUpper Client.new "guild create" JSValue.null = (Client.new, none) :=
  ⟨by decide, handleEvent_unrecognised asciiUpper Client.new "guild create" JSValue.null
    (by decide)⟩

/-! ### `Client.latency` -/

/-- The call `latencies.slice(-3)` keeps what is left after dropping all but three. -/
theorem slice_neg_three {α : Type} (xs : List α) : slice xs (-3) = xs.drop (xs.length - 3) := by
  unfold slice
  simp only [show ((-3 : Int) < 0) from by decide, if_true]
  congr 1
  omega

/-- C3: with no latency sample, `latency` returns a number that is not finite, whatever the
helper `sum` returns for the empty array: it differs from every finite latency, zero included.
With the modelled `sum` it is `NaN`. -/
theorem latency_no_samples (sum : List JSNum → JSNum) (c : Client) (ws : Websocket)
    (hws : c.ws = some ws) (hl : ws.latencies = []) :
    (∃ r, Client.latency sum c = Except.ok r ∧ r.isFinite = false ∧ r ≠ JSNum.fin 0 ∧
        ∀ q : ℚ, r ≠ JSNum.fin q)
      ∧ Client.latency utils.sum c = Except.ok JSNum.nan := by
  have hs : slice ([] : List JSNum) (-3) = [] := by rw [slice_neg_three]; rfl
  constructor
  · refine ⟨((sum []).div (JSNum.fin 0)).mul (JSNum.fin 1000), ?_, ?_⟩
    · simp only [Client.latency, hws, hl, hs, List.length_nil, Nat.cast_zero]
    cases hsum : sum [] with
    | nan => simp [JSNum.div, JSNum.mul, JSNum.isFinite]
    | inf a => simp [JSNum.div, JSNum.mul, JSNum.isFinite]
    | fin x =>
      by_cases hx : x = 0
      · simp [JSNum.div, JSNum.mul, JSNum.isFinite, hx]
      · simp [JSNum.div, JSNum.mul, JSNum.isFinite, hx]
  · simp [Client.latency, hws, hl, hs, utils.sum, JSNum.div, JSNum.mul]

/-- C3 at a client whose websocket has just been created. -/
theorem latency_no_samples_witness :
    Client.latency utils.sum
        { Client.new with ws := some ⟨JSValue.str "t", 9, [], true⟩ } = Except.ok JSNum.nan :=
  (latency_no_samples utils.sum
    { Client.new with ws := some ⟨JSValue.str "t", 9, [], true⟩ }
    ⟨JSValue.str "t", 9, [], true⟩ rfl rfl).2

/-! ### `handleEvent`: READY and RESUMED -/

/-- C4, as stated, fails: on a READY payload with a user, the one `ready` notification is
emitted with no argument at all, so no notification carries the identity payload. -/
theorem ready_carries_no_payload :
    ((handleEvent asciiUpper Client.new "READY"
        (JSValue.obj [("user", JSValue.obj [("id", JSValue.str "42")])])).1.emitted.map
          (fun e => (e.name, e.args.length)) = [("ready", 0)])
      ∧ ¬ ∃ e ∈ (handleEvent asciiUpper Client.new "READY"
            (JSValue.obj [("user", JSValue.obj [("id", JSValue.str "42")])])).1.emitted,
          e.name = "ready" ∧ e.args ≠ [] := by
  have h : (handleEvent asciiUpper Client.new "READY"
      (JSValue.obj [("user", JSValue.obj [("id", JSValue.str "42")])])).1.emitted
        = [⟨"ready", [], none⟩] := by
    rfl
  rw [h]
  simp

/-- C4, amended: for every READY event and payload, `handleEvent` emits exactly one
notification, it is named `ready` and carries no argument; the identity is stored instead:
when the payload has a `user` property to read, `client.user` ends as the user built from
it. -/
theorem ready_emits_once_without_payload (toUpperCase : String → String) (client : Client)
    (event : String) (data : JSValue) (h : normalise toUpperCase event = "READY") :
    (∃ e, (handleEvent toUpperCase client event data).1.emitted = client.emitted ++ [e] ∧
        e.name = "ready" ∧ e.args = [])
      ∧ (∀ u, getProp data "user" = Except.ok u →
          (handleEvent toUpperCase client event data).1.user = some ⟨u⟩) := by
  constructor
  · refine ⟨⟨"ready", [], client.user⟩, ?_, rfl, rfl⟩
    simp only [handleEvent, h, if_true, Client.emit]
    cases getProp data "user" <;> rfl
  · intro u hu
    simp only [handleEvent, h, if_true, hu]

/-- C4, amended, at the event name `"ready"` and a payload with a user. -/
theorem ready_emits_once_without_payload_witness :
    normalise asciiUpper "ready" = "READY" ∧
    ∃ e, (handleEvent asciiUpper Client.new "ready"
        (JSValue.obj [("user", JSValue.obj [("id", JSValue.str "42")])])).1.emitted
          = Client.new.emitted ++ [e] ∧ e.name = "ready" ∧ e.args = [] :=
  ⟨by decide, (ready_emits_once_without_payload asciiUpper Client.new "ready"
    (JSValue.obj [("user", JSValue.obj [("id", JSValue.str "42")])]) (by decide)).1⟩

/-- C5, evaluated on the code: on the first READY of a new client, `client.user` is still
undefined when `ready` is emitted, and is set to the user built from the payload only
afterwards. -/
theorem ready_emitted_before_user_is_set :
    (handleEvent asciiUpper Client.new "READY"
        (JSValue.obj [("user", JSValue.obj [("username", JSValue.str "bot")])])).1.emitted.map
          (fun e => (e.name, e.userAtEmit.isSome)) = [("ready", false)]
      ∧ ((handleEvent asciiUpper Client.new "READY"
        (JSValue.obj [("user", JSValue.obj [("username", JSValue.str "bot")])])).1.user.map
          (fun u => getProp u.data "username")) = some (Except.ok (JSValue.str "bot")) := by
  constructor <;> rfl

/-- C6: for every payload, a RESUMED event emits exactly one notification, named `resumed`;
the number of `ready` notifications does not change, `client.user` is not replaced, and no
exception is thrown. -/
theorem resumed_emits_resumed_only (toUpperCase : String → String) (client : Client)
    (event : String) (data : JSValue) (h : normalise toUpperCase event = "RESUMED") :
    (∃ e, (handleEvent toUpperCase client event data).1.emitted = client.emitted ++ [e] ∧
        e.name = "resumed" ∧ e.args = [])
      ∧ readyCount (handleEvent toUpperCase client event data).1.emitted
          = readyCount client.emitted
      ∧ (handleEvent toUpperCase client event data).1.user = client.user
      ∧ (handleEvent toUpperCase client event data).2 = none := by
  have hne : ¬ ("RESUMED" = "READY") := by decide
  have hr : handleEvent toUpperCase client event data = (client.emit "resumed" [], none) := by
    simp only [handleEvent, h, if_neg hne, if_true]
  rw [hr]
  refine ⟨⟨⟨"resumed", [], client.user⟩, rfl, rfl, rfl⟩, ?_, rfl, rfl⟩
  simp [readyCount, Client.emit, List.filter_append]

/-- C6 at the event name `"resumed"` on a client that has already been through READY. -/
theorem resumed_emits_resumed_only_witness :
    normalise asciiUpper "resumed" = "RESUMED" ∧
    readyCount (handleEvent asciiUpper
        (handleEvent asciiUpper Client.new "READY"
          (JSValue.obj [("user", JSValue.obj [])])).1 "resumed" JSValue.null).1.emitted = 1 :=
  ⟨by decide, by
    rw [(resumed_emits_resumed_only asciiUpper
      (handleEvent asciiUpper Client.new "READY" (JSValue.obj [("user", JSValue.obj [])])).1
      "resumed" JSValue.null (by decide)).2.1]
    rfl⟩

/-! ### `Client.start` -/

/-- C7: for a token that is missing (`undefined`) or a string, `start` fails with
`InvalidToken` ("Token is undefined.") exactly when the token is missing or the empty string;
in that case the client is returned as it was (no token stored, no requester and no websocket
created, nothing started); otherwise the token is stored and both the requester and the
websocket are created by constructors that already see the stored token. -/
theorem start_rejects_missing_token (transportOpens : Bool) (c : Client) (token : JSValue)
    (hty : token = JSValue.undefined ∨ ∃ s, token = JSValue.str s) :
    ((c.start transportOpens token).2 = some ⟨"InvalidToken", "Token is undefined."⟩ ↔
        (token = JSValue.undefined ∨ token = JSValue.str ""))
      ∧ ((token = JSValue.undefined ∨ token = JSValue.str "") →
          (c.start transportOpens token).1 = c)
      ∧ (¬ (token = JSValue.undefined ∨ token = JSValue.str "") →
          (c.start transportOpens token).1.token = token ∧
          ∃ r w, (c.start transportOpens token).1.http = some r ∧ r.tokenAtCreation = token ∧
            (c.start transportOpens token).1.ws = some w ∧ w.tokenAtCreation = token) := by
  rcases hty with rfl | ⟨s, rfl⟩
  · simp [Client.start, Client.putToken, JSValue.truthy]
  · by_cases hs : s = ""
    · subst hs
      simp [Client.start, Client.putToken, JSValue.truthy]
    · have hne : ¬ (JSValue.undefined = JSValue.str s ∨ JSValue.str s = JSValue.str "") := by
        simp [hs]
      cases transportOpens <;>
        simp [Client.start, Client.putToken, JSValue.truthy, hs, Client.establishHTTP,
          Client.establishWebsocket, Websocket.start]

/-- C7 at a new client and the token `"token"` of the example, with a transport that opens. -/
theorem start_rejects_missing_token_witness :
    (JSValue.str "token" = JSValue.undefined ∨ ∃ s, JSValue.str "token" = JSValue.str s) ∧
    ((Client.new.start true (JSValue.str "token")).2
        = some ⟨"InvalidToken", "Token is undefined."⟩ ↔
      (JSValue.str "token" = JSValue.undefined ∨ JSValue.str "token" = JSValue.str "")) :=
  ⟨Or.inr ⟨"token", rfl⟩,
   (start_rejects_missing_token true Client.new (JSValue.str "token") (Or.inr ⟨"token", rfl⟩)).1⟩

/-! ### The `Bot` constructor -/

/-- C8, evaluated on the code: the call of the example, `new Bot({ prefix: "!" })`, throws a
`TypeError` instead of building a bot with the prefix `"!"`; `new Bot("!")` and `new Bot()`
throw a `ReferenceError`; no call builds a bot and none throws a `ConstructionError`.  Past
these throws, `_setupOptions` on the options `{}` throws a `ReferenceError` too. -/
theorem bot_construction_always_throws :
    Bot.new (JSValue.obj [("prefix", JSValue.str "!")])
        = Except.error ⟨"TypeError", "Object.items is not a function"⟩
      ∧ Bot.new (JSValue.str "!") = Except.error ⟨"ReferenceError",
          "Must call super constructor in derived class before accessing this"⟩
      ∧ Bot.new JSValue.undefined = Except.error ⟨"ReferenceError",
          "Must call super constructor in derived class before accessing this"⟩
      ∧ (∀ options, ∃ e, Bot.new options = Except.error e ∧ e.name ≠ "ConstructionError")
      ∧ (∀ b : Bot, b._setupOptions
            (spreadInto [("botDefaults", JSValue.obj botDefaults)] (JSValue.obj []))
          = Except.error ⟨"ReferenceError", "prefix is not defined"⟩) := by
  refine ⟨rfl, rfl, rfl, ?_, fun b => rfl⟩
  intro options
  by_cases h1 : options.typeOf = "object"
  · refine ⟨⟨"TypeError", "Object.items is not a function"⟩, ?_, by decide⟩
    simp only [Bot.new, h1, if_true, Object.items]
  · refine ⟨⟨"ReferenceError",
      "Must call super constructor in derived class before accessing this"⟩, ?_, by decide⟩
    by_cases h2 : options.typeOf = "string"
    · simp only [Bot.new, if_neg h1]
      simp only [h2, if_true, thisBinding]
    · simp only [Bot.new, if_neg h1, if_neg h2, thisBinding]

/-! ### Embeds: the footer and the round trip through the constructor -/

/-- C9, evaluated on the code: after `new Embed().setFooter("hello")` (and just so after
`setFooterText("hello")`) the embed holds the footer text `"hello"`, but the footer that
`toJSON` returns is `{ name: null, icon_url: null }`: it has no `text`, and the text is lost.
The same holds for an embed loaded from raw data with `footer.text = "hello"`. -/
theorem toJSON_loses_footer_text (host : Host) :
    ((Embed.new host JSValue.undefined >>= fun e => e.setFooter (JSValue.str "hello")
        JSValue.undefined) >>= fun e => pure (lookupProp "text" e.footer))
        = Except.ok (JSValue.str "hello")
      ∧ (((Embed.new host JSValue.undefined >>= fun e => e.setFooter (JSValue.str "hello")
        JSValue.undefined) >>= fun e => e.toJSON host) >>= fun j => getProp j "footer")
        = Except.ok (JSValue.obj [("name", JSValue.null), ("icon_url", JSValue.null)])
      ∧ (((Embed.new host JSValue.undefined >>= fun e => e.setFooterText (JSValue.str "hello"))
        >>= fun e => e.toJSON host) >>= fun j => getProp j "footer")
        = Except.ok (JSValue.obj [("name", JSValue.null), ("icon_url", JSValue.null)])
      ∧ ((Embed.new exampleHost (JSValue.obj
          [("timestamp", JSValue.str "2021-01-01T00:00:00.000Z"),
           ("footer", JSValue.obj [("text", JSValue.str "hello"),
              ("icon_url", JSValue.str "https://example.org/i.png")])])
        >>= fun e => pure (lookupProp "text" e.footer)) = Except.ok (JSValue.str "hello"))
      ∧ (((Embed.new exampleHost (JSValue.obj
          [("timestamp", JSValue.str "2021-01-01T00:00:00.000Z"),
           ("footer", JSValue.obj [("text", JSValue.str "hello"),
              ("icon_url", JSValue.str "https://example.org/i.png")])])
        >>= fun e => e.toJSON exampleHost) >>= fun j => getProp j "footer")
        = Except.ok (JSValue.obj [("name", JSValue.null),
            ("icon_url", JSValue.str "https://example.org/i.png")])) := by
  refine ⟨rfl, rfl, rfl, ?_, ?_⟩
  · rfl
  · rfl

/-- C10, evaluated on the code: for raw embed data with type, title, description, url, a
fields array and an author, but no timestamp, `new Embed(data).toJSON()` throws a `RangeError`
(`loadData` stores an invalid `Date`, and `toISOString` throws on it) instead of returning an
object that agrees with the data. -/
theorem toJSON_throws_without_timestamp (host : Host) :
    (Embed.new host (JSValue.obj
        [("type", JSValue.str "rich"), ("title", JSValue.str "t"),
         ("description", JSValue.str "d"), ("url", JSValue.str "https://example.org"),
         ("fields", JSValue.arr [JSValue.obj [("name", JSValue.str "n"),
            ("value", JSValue.str "v"), ("inline", JSValue.bool true)]]),
         ("author", JSValue.obj [("name", JSValue.str "a"),
            ("icon_url", JSValue.str "https://example.org/a.png"),
            ("url", JSValue.str "https://example.org/a")])])
      >>= fun e => e.toJSON host) = Except.error ⟨"RangeError", "Invalid time value"⟩ := by
  rfl

/-! ### The round trip for data with a valid timestamp -/

/-- Reading a property of an object does not throw. -/
theorem getProp_obj (props : List (String × JSValue)) (k : String) :
    getProp (JSValue.obj props) k = Except.ok (lookupProp k props) := rfl

/-- Reading a property of a truthy value does not throw. -/
theorem getProp_of_truthy (v : JSValue) (k : String) (h : v.truthy = true) :
    getProp v k = Except.ok (propOf v k) := by
  cases v <;> simp [getProp, propOf, JSValue.truthy] at h ⊢

/-- Loading the footer of an object succeeds and leaves the core of the embed alone. -/
theorem loadFooter_obj (this : Embed) (props : List (String × JSValue)) :
    ∃ e, this.loadFooter (JSValue.obj props) = Except.ok e ∧ e.core = this.core := by
  by_cases h : (lookupProp "footer" props).truthy = true
  · simp [Embed.loadFooter, Embed.footerOf, getProp_obj, bind, Except.bind, pure, Except.pure, h,
      getProp_of_truthy, Embed.core]
  · simp [Embed.loadFooter, getProp_obj, bind, Except.bind, pure, Except.pure, h]

/-- Loading the thumbnail of an object succeeds and leaves the core of the embed alone. -/
theorem loadThumbnail_obj (this : Embed) (props : List (String × JSValue)) :
    ∃ e, this.loadThumbnail (JSValue.obj props) = Except.ok e ∧ e.core = this.core := by
  by_cases h : (lookupProp "thumbnail" props).truthy = true
  · simp [Embed.loadThumbnail, Embed.mediaOf, getProp_obj, bind, Except.bind, pure, Except.pure,
      h, getProp_of_truthy, Embed.core]
  · simp [Embed.loadThumbnail, getProp_obj, bind, Except.bind, pure, Except.pure, h]

/-- Loading the image of an object succeeds and leaves the core of the embed alone. -/
theorem loadImage_obj (this : Embed) (props : List (String × JSValue)) :
    ∃ e, this.loadImage (JSValue.obj props) = Except.ok e ∧ e.core = this.core := by
  by_cases h : (lookupProp "image" props).truthy = true
  · simp [Embed.loadImage, Embed.mediaOf, getProp_obj, bind, Except.bind, pure, Except.pure,
      h, getProp_of_truthy, Embed.core]
  · simp [Embed.loadImage, getProp_obj, bind, Except.bind, pure, Except.pure, h]

/-- Loading the video of an object succeeds and leaves the core of the embed alone. -/
theorem loadVideo_obj (this : Embed) (props : List (String × JSValue)) :
    ∃ e, this.loadVideo (JSValue.obj props) = Except.ok e ∧ e.core = this.core := by
  by_cases h : (lookupProp "video" props).truthy = true
  · simp [Embed.loadVideo, Embed.mediaOf, getProp_obj, bind, Except.bind, pure, Except.pure,
      h, getProp_of_truthy, Embed.core]
  · simp [Embed.loadVideo, getProp_obj, bind, Except.bind, pure, Except.pure, h]

/-- Loading the provider of an object succeeds and leaves the core of the embed alone. -/
theorem loadProvider_obj (this : Embed) (props : List (String × JSValue)) :
    ∃ e, this.loadProvider (JSValue.obj props) = Except.ok e ∧ e.core = this.core := by
  by_cases h : (lookupProp "provider" props).truthy = true <;>
    simp [Embed.loadProvider, getProp_obj, bind, Except.bind, pure, Except.pure, h, Embed.core]

/-- Loading an author that is an object succeeds and sets the author of the embed. -/
theorem loadAuthor_obj (this : Embed) (props author : List (String × JSValue))
    (hauthor : lookupProp "author" props = JSValue.obj author) :
    ∃ e, this.loadAuthor (JSValue.obj props) = Except.ok e ∧
      e.core = (this.type, this.title, this.description, this.url, this.fields, this.timestamp,
        [("name", lookupProp "name" author), ("iconURL", lookupProp "icon_url" author),
         ("proxyIconURL", lookupProp "proxy_icon_url" author), ("url", lookupProp "url" author),
         ("toString", JSValue.fn "toString")]) := by
  simp [Embed.loadAuthor, Embed.authorOf, getProp_obj, bind, Except.bind, pure, Except.pure,
    hauthor, JSValue.truthy, Embed.core]

/-- Loading the scalar properties of an object succeeds. -/
theorem loadScalars_obj (host : Host) (this : Embed) (props : List (String × JSValue)) :
    ∃ e, this.loadScalars host (JSValue.obj props) = Except.ok e ∧
      e.core = (if (lookupProp "type" props).truthy then lookupProp "type" props else this.type,
        lookupProp "title" props, lookupProp "description" props, lookupProp "url" props,
        (if (lookupProp "fields" props).truthy then lookupProp "fields" props
          else JSValue.arr []),
        some (Date.new (Date.parse host (lookupProp "timestamp" props))), this.author) := by
  by_cases h : (lookupProp "type" props).truthy = true <;>
    simp [Embed.loadScalars, getProp_obj, bind, Except.bind, pure, Except.pure, h, Embed.core]

/-- The embed that the constructor builds from an object with an author object. -/
theorem new_obj (host : Host) (props author : List (String × JSValue))
    (hauthor : lookupProp "author" props = JSValue.obj author) :
    ∃ e, Embed.new host (JSValue.obj props) = Except.ok e ∧
      e.core = ((lookupProp "type" props).or (JSValue.str "rich"),
        lookupProp "title" props, lookupProp "description" props, lookupProp "url" props,
        (if (lookupProp "fields" props).truthy then lookupProp "fields" props
          else JSValue.arr []),
        some (Date.new (Date.parse host (lookupProp "timestamp" props))),
        [("name", lookupProp "name" author), ("iconURL", lookupProp "icon_url" author),
         ("proxyIconURL", lookupProp "proxy_icon_url" author), ("url", lookupProp "url" author),
         ("toString", JSValue.fn "toString")]) := by
  obtain ⟨e1, h1, c1⟩ := loadScalars_obj host Embed.empty props
  obtain ⟨e2, h2, c2⟩ := loadFooter_obj e1 props
  obtain ⟨e3, h3, c3⟩ := loadAuthor_obj e2 props author hauthor
  obtain ⟨e4, h4, c4⟩ := loadThumbnail_obj e3 props
  obtain ⟨e5, h5, c5⟩ := loadImage_obj e4 props
  obtain ⟨e6, h6, c6⟩ := loadVideo_obj e5 props
  obtain ⟨e7, h7, c7⟩ := loadProvider_obj e6 props
  refine ⟨e7, ?_, ?_⟩
  · simp only [Embed.new, JSValue.truthy, if_true, Embed.loadData, bind, Except.bind, h1, h2, h3,
      h4, h5, h6, h7]
  · rw [c7, c6, c5, c4, c3]
    simp only [Embed.core, Prod.mk.injEq] at c1 c2
    obtain ⟨a1, a2, a3, a4, a5, a6, a7⟩ := c2
    obtain ⟨b1, b2, b3, b4, b5, b6, b7⟩ := c1
    rw [a1, a2, a3, a4, a5, a6, b1, b2, b3, b4, b5, b6]
    rfl

/-- On an embed whose timestamp is a valid date, `toJSON` returns an object. -/
theorem toJSON_of_valid_timestamp (host : Host) (e : Embed) (t : Int)
    (h : e.timestamp = some ⟨some t⟩) :
    ∃ j, e.toJSON host = Except.ok (JSValue.obj j) ∧
      lookupProp "type" j = e.type.or (JSValue.str "rich") ∧
      lookupProp "title" j = e.title.or JSValue.null ∧
      lookupProp "description" j = e.description.or JSValue.null ∧
      lookupProp "url" j = e.url.or JSValue.null ∧
      lookupProp "fields" j = e.fields ∧
      lookupProp "author" j = (if e.author.length ≠ 0 then
        JSValue.obj
          [("name", (lookupProp "name" e.author).or JSValue.null),
           ("icon_url", (lookupProp "iconURL" e.author).or JSValue.null),
           ("url", (lookupProp "url" e.author).or JSValue.null)]
        else JSValue.null) := by
  simp [Embed.toJSON, h, JSDate.toISOString, bind, Except.bind, pure, Except.pure, lookupProp]

/-- The round trip through the constructor holds for raw data whose timestamp is read as a
valid date: `new Embed(data).toJSON()` then agrees with the data on type, title, description,
url, fields and the name, icon_url and url of the author. -/
theorem roundtrip_with_valid_timestamp (host : Host) (props author : List (String × JSValue))
    (items : List JSValue) (t : Int)
    (htype : (lookupProp "type" props).truthy = true)
    (htitle : (lookupProp "title" props).truthy = true)
    (hdesc : (lookupProp "description" props).truthy = true)
    (hurl : (lookupProp "url" props).truthy = true)
    (hfields : lookupProp "fields" props = JSValue.arr items)
    (hauthor : lookupProp "author" props = JSValue.obj author)
    (hname : (lookupProp "name" author).truthy = true)
    (hicon : (lookupProp "icon_url" author).truthy = true)
    (haurl : (lookupProp "url" author).truthy = true)
    (hts : Date.new (Date.parse host (lookupProp "timestamp" props)) = ⟨some t⟩) :
    ∃ j a, (Embed.new host (JSValue.obj props) >>= fun e => e.toJSON host)
          = Except.ok (JSValue.obj j) ∧
      lookupProp "type" j = lookupProp "type" props ∧
      lookupProp "title" j = lookupProp "title" props ∧
      lookupProp "description" j = lookupProp "description" props ∧
      lookupProp "url" j = lookupProp "url" props ∧
      lookupProp "fields" j = JSValue.arr items ∧
      lookupProp "author" j = JSValue.obj a ∧
      lookupProp "name" a = lookupProp "name" author ∧
      lookupProp "icon_url" a = lookupProp "icon_url" author ∧
      lookupProp "url" a = lookupProp "url" author := by
  obtain ⟨e, he, hc⟩ := new_obj host props author hauthor
  simp only [Embed.core, Prod.mk.injEq] at hc
  obtain ⟨c1, c2, c3, c4, c5, c6, c7⟩ := hc
  obtain ⟨j, hj, j1, j2, j3, j4, j5, j6⟩ := toJSON_of_valid_timestamp host e t (by rw [c6, hts])
  refine ⟨j, [("name", lookupProp "name" author), ("icon_url", lookupProp "icon_url" author),
    ("url", lookupProp "url" author)], ?_, ?_, ?_, ?_, ?_, ?_, ?_, ?_, ?_, ?_⟩
  · simp only [he, bind, Except.bind, hj]
  · rw [j1, c1]; simp [JSValue.or, htype]
  · rw [j2, c2]; simp [JSValue.or, htitle]
  · rw [j3, c3]; simp [JSValue.or, hdesc]
  · rw [j4, c4]; simp [JSValue.or, hurl]
  · rw [j5, c5, hfields]; simp [JSValue.truthy]
  · rw [j6, c7]; simp [lookupProp, JSValue.or, hname, hicon, haurl]
  · simp [lookupProp]
  · simp [lookupProp]
  · simp [lookupProp]

/-! ### The field operations of an embed -/

/-- On an embed whose fields are an array, `addField` with a name that is a string appends
one field. -/
theorem addField_str (e : Embed) (items : List JSValue) (name : String)
    (value inline : JSValue) (h : e.fields = JSValue.arr items) :
    ∃ e' field, e.addField (JSValue.str name) value inline = Except.ok e' ∧
      e'.fields = JSValue.arr (items ++ [field]) := by
  cases inline <;>
    simp [Embed.addField, fieldsArray, h, Embed.craftField, JSValue.instanceofObject, bind,
      Except.bind, pure, Except.pure]

/-- Repeated `addField` calls on an embed whose fields are an array add one field each, with
no upper limit. -/
theorem addField_repeat (n : Nat) (e : Embed) (items : List JSValue) (name : String)
    (value inline : JSValue) (h : e.fields = JSValue.arr items) :
    ∃ e', e.applyFieldOps (List.replicate n (FieldOp.addField (JSValue.str name) value inline))
        = Except.ok e' ∧ e'.fieldCount = items.length + n := by
  induction n generalizing e items with
  | zero => exact ⟨e, rfl, by simp [Embed.fieldCount, h]⟩
  | succ n ih =>
    obtain ⟨e1, field, h1, hf⟩ := addField_str e items name value inline h
    obtain ⟨e2, h2, hc⟩ := ih e1 (items ++ [field]) hf
    refine ⟨e2, ?_, ?_⟩
    · simp only [List.replicate_succ, Embed.applyFieldOps, Embed.applyFieldOp, h1, h2]
    · rw [hc, List.length_append, List.length_singleton]; omega

/-- C11, evaluated on the code: 26 calls of `addField` on a new embed leave 26 fields, and n
calls leave n fields for every n; `setFields` with an array of 26 fields and `setField` at
index 25 of a new embed leave 26 fields too.  No field operation looks at the length. -/
theorem fields_exceed_25 (host : Host) :
    ((Embed.new host JSValue.undefined >>= fun e => e.applyFieldOps
        (List.replicate 26 (FieldOp.addField (JSValue.str "name") (JSValue.str "value")
          JSValue.undefined))) >>= fun e => pure e.fieldCount) = Except.ok 26
      ∧ (∀ n : Nat, ((Embed.new host JSValue.undefined >>= fun e => e.applyFieldOps
        (List.replicate n (FieldOp.addField (JSValue.str "name") (JSValue.str "value")
          JSValue.undefined))) >>= fun e => pure e.fieldCount) = Except.ok n)
      ∧ ((Embed.new host JSValue.undefined >>= fun e => e.applyFieldOps
        [FieldOp.setFields (JSValue.arr (List.replicate 26 (JSValue.obj
          [("name", JSValue.str "name"), ("value", JSValue.str "value")])))])
          >>= fun e => pure e.fieldCount) = Except.ok 26
      ∧ ((Embed.new host JSValue.undefined >>= fun e => e.applyFieldOps
        [FieldOp.setField 25 (JSValue.str "name") (JSValue.str "value") JSValue.undefined])
          >>= fun e => pure e.fieldCount) = Except.ok 26 := by
  refine ⟨rfl, ?_, rfl, rfl⟩
  intro n
  obtain ⟨e', h, hc⟩ := addField_repeat n Embed.empty [] "name" (JSValue.str "value")
    JSValue.undefined rfl
  have hnew : Embed.new host JSValue.undefined = Except.ok Embed.empty := rfl
  simp only [hnew, bind, Except.bind, h, pure, Except.pure, hc, List.length_nil, zero_add]

/-! ### The gateway session -/

/-- Handling a frame stores the larger of the stored sequence number and that of the frame,
where null is below every number. -/
theorem receive_sequence (s : Session) (f : Frame) :
    (s.receive f).sequence =
      match s.sequence, f.sequence with
      | none, b => b
      | some m, none => some m
      | some m, some n => some (max m n) := by
  cases hs : s.sequence <;> cases hf : f.sequence <;> simp [Session.receive, hs, hf]
  rename_i m n
  by_cases h : m < n
  · simp [h, max_eq_right h.le]
  · simp [h, max_eq_left (not_lt.mp h)]

/-- Handling a frame leaves a stored sequence number that is at least the one stored before
and at least that of the frame. -/
theorem receive_ge (s : Session) (f : Frame) (n : Int)
    (h : s.sequence = some n ∨ f.sequence = some n) :
    ∃ m, (s.receive f).sequence = some m ∧ n ≤ m := by
  rw [receive_sequence]
  cases hs : s.sequence <;> cases hf : f.sequence <;> simp [hs, hf] at h ⊢
  · exact h.ge
  · exact h.ge
  · rcases h with h | h
    · left; exact h.ge
    · right; exact h.ge

/-- The sequence number stored after a frame is the one stored before or that of the frame. -/
theorem receive_mem (s : Session) (f : Frame) (m : Int)
    (h : (s.receive f).sequence = some m) : s.sequence = some m ∨ f.sequence = some m := by
  rw [receive_sequence] at h
  cases hs : s.sequence <;> cases hf : f.sequence <;> simp [hs, hf] at h ⊢
  · exact h
  · exact h
  · rename_i a b
    rcases le_total a b with hab | hab
    · right; rw [← h, max_eq_right hab]
    · left; rw [← h, max_eq_left hab]

/-- What a session has seen after the first frame of a sequence. -/
theorem mem_seen_cons (s : Session) (f : Frame) (fs : List Frame) (n : Int) :
    n ∈ s.seen (f :: fs) ↔
      s.sequence = some n ∨ f.sequence = some n ∨ n ∈ fs.filterMap (fun g => g.sequence) := by
  cases hs : s.sequence <;> cases hf : f.sequence <;>
    simp [Session.seen, hs, hf, List.filterMap_cons, eq_comm]

/-- What a session has seen, by where it comes from. -/
theorem mem_seen_tail (s : Session) (fs : List Frame) (n : Int) :
    n ∈ s.seen fs ↔ s.sequence = some n ∨ n ∈ fs.filterMap (fun g => g.sequence) := by
  cases hs : s.sequence <;> simp [Session.seen, hs, eq_comm]

/-- The stored sequence number is at least every sequence number seen. -/
theorem receiveAll_ge (frames : List Frame) (s : Session) (n : Int) (h : n ∈ s.seen frames) :
    ∃ m, (s.receiveAll frames).sequence = some m ∧ n ≤ m := by
  induction frames generalizing s n with
  | nil =>
    rw [mem_seen_tail] at h
    simp at h
    exact ⟨n, h, le_refl n⟩
  | cons f fs ih =>
    rw [mem_seen_cons] at h
    have step : s.receiveAll (f :: fs) = (s.receive f).receiveAll fs := rfl
    rw [step]
    rcases h with h | h | h
    · obtain ⟨m1, h1, hle⟩ := receive_ge s f n (Or.inl h)
      obtain ⟨m, hm, hle2⟩ := ih (s.receive f) m1 ((mem_seen_tail _ _ _).mpr (Or.inl h1))
      exact ⟨m, hm, hle.trans hle2⟩
    · obtain ⟨m1, h1, hle⟩ := receive_ge s f n (Or.inr h)
      obtain ⟨m, hm, hle2⟩ := ih (s.receive f) m1 ((mem_seen_tail _ _ _).mpr (Or.inl h1))
      exact ⟨m, hm, hle.trans hle2⟩
    · exact ih (s.receive f) n ((mem_seen_tail _ _ _).mpr (Or.inr h))

/-- The stored sequence number is one of the sequence numbers seen. -/
theorem receiveAll_mem (frames : List Frame) (s : Session) (m : Int)
    (h : (s.receiveAll frames).sequence = some m) : m ∈ s.seen frames := by
  induction frames generalizing s with
  | nil => exact (mem_seen_tail _ _ _).mpr (Or.inl h)
  | cons f fs ih =>
    have step : s.receiveAll (f :: fs) = (s.receive f).receiveAll fs := rfl
    rw [step] at h
    rw [mem_seen_cons]
    rcases (mem_seen_tail _ _ _).mp (ih (s.receive f) h) with h1 | h1
    · rcases receive_mem s f m h1 with h2 | h2
      · exact Or.inl h2
      · exact Or.inr (Or.inl h2)
    · exact Or.inr (Or.inr h1)

/-- Every frame is handed to the event decoder, in the order of arrival. -/
theorem receiveAll_dispatched (frames : List Frame) (s : Session) :
    (s.receiveAll frames).dispatched = s.dispatched ++ frames := by
  induction frames generalizing s with
  | nil => simp [Session.receiveAll]
  | cons f fs ih =>
    have step : s.receiveAll (f :: fs) = (s.receive f).receiveAll fs := rfl
    rw [step, ih]
    simp [Session.receive]

/-- After frames whose sequence numbers increase strictly from the stored one on, the stored
sequence number is the last one. -/
theorem receiveAll_increasing (ns : List Int) (frames : List Frame) (s : Session) (m : Int)
    (hs : s.sequence = some m) (hf : frames.map (fun f => f.sequence) = ns.map some)
    (hc : List.Chain (fun a b => a < b) m ns) :
    (s.receiveAll frames).sequence = some ((m :: ns).getLast (List.cons_ne_nil m ns)) := by
  induction ns generalizing frames s m with
  | nil =>
    cases frames with
    | nil => simpa [Session.receiveAll] using hs
    | cons f fs => simp at hf
  | cons n ns ih =>
    cases frames with
    | nil => simp at hf
    | cons f fs =>
      simp only [List.map_cons, List.cons.injEq] at hf
      obtain ⟨hfn, hfs⟩ := hf
      rw [List.chain_cons] at hc
      have step : s.receiveAll (f :: fs) = (s.receive f).receiveAll fs := rfl
      have h1 : (s.receive f).sequence = some n := by
        rw [receive_sequence, hs, hfn]
        simp [max_eq_right hc.1.le]
      rw [step, ih fs (s.receive f) n h1 hfs hc.2]
      simp [List.getLast_cons]

/-- C12: for every sequence of inbound data frames the stored sequence number ends as the
maximum of the sequence numbers seen (it is at least each of them, and it is one of them); in
particular, after frames whose sequence numbers increase strictly it is the last of them.  A
frame whose sequence number does not exceed the stored one leaves it as it is, no frame
decreases it, and every frame is still handed to the event decoder. -/
theorem session_sequence_is_maximum (s : Session) (frames : List Frame) :
    (∀ n ∈ s.seen frames, ∃ m, (s.receiveAll frames).sequence = some m ∧ n ≤ m)
      ∧ (∀ m, (s.receiveAll frames).sequence = some m → m ∈ s.seen frames)
      ∧ (∀ ns : List Int, s.sequence = none →
          frames.map (fun f => f.sequence) = ns.map some →
          List.Chain' (fun a b => a < b) ns → (s.receiveAll frames).sequence = ns.getLast?)
      ∧ (∀ (f : Frame) (m n : Int), s.sequence = some m → f.sequence = some n → n ≤ m →
          (s.receive f).sequence = some m)
      ∧ (∀ (f : Frame) (m : Int), s.sequence = some m →
          ∃ k, (s.receive f).sequence = some k ∧ m ≤ k)
      ∧ (s.receiveAll frames).dispatched = s.dispatched ++ frames := by
  refine ⟨fun n hn => receiveAll_ge frames s n hn, fun m hm => receiveAll_mem frames s m hm,
    ?_, ?_, fun f m hm => receive_ge s f m (Or.inl hm), receiveAll_dispatched frames s⟩
  · intro ns hs hf hc
    cases ns with
    | nil =>
      cases frames with
      | nil => simpa [Session.receiveAll] using hs
      | cons f fs => simp at hf
    | cons n ns =>
      cases frames with
      | nil => simp at hf
      | cons f fs =>
        simp only [List.map_cons, List.cons.injEq] at hf
        have step : s.receiveAll (f :: fs) = (s.receive f).receiveAll fs := rfl
        have h1 : (s.receive f).sequence = some n := by
          rw [receive_sequence, hs, hf.1]
        rw [step, receiveAll_increasing ns fs (s.receive f) n h1 hf.2 hc,
          List.getLast?_eq_getLast _ (List.cons_ne_nil n ns)]
  · intro f m n hm hn hle
    rw [receive_sequence, hm, hn]
    simp [max_eq_left hle]

/-- C12 at a new session and frames with the sequence numbers 1, 2, 3 and then 2 again: the
stored sequence number ends as 3. -/
theorem session_sequence_is_maximum_witness :
    (3 : Int) ∈ Session.seen ⟨none, []⟩
        [⟨some 1, some "READY", JSValue.null⟩, ⟨some 2, none, JSValue.null⟩,
         ⟨some 3, none, JSValue.null⟩, ⟨some 2, none, JSValue.null⟩] ∧
    ∃ m, (Session.receiveAll ⟨none, []⟩
        [⟨some 1, some "READY", JSValue.null⟩, ⟨some 2, none, JSValue.null⟩,
         ⟨some 3, none, JSValue.null⟩, ⟨some 2, none, JSValue.null⟩]).sequence = some m ∧
      (3 : Int) ≤ m :=
  ⟨by decide, (session_sequence_is_maximum ⟨none, []⟩
    [⟨some 1, some "READY", JSValue.null⟩, ⟨some 2, none, JSValue.null⟩,
     ⟨some 3, none, JSValue.null⟩, ⟨some 2, none, JSValue.null⟩]).1 3 (by decide)⟩

end JsCord
